import Mathlib

set_option linter.unnecessarySeqFocus false
set_option linter.unreachableTactic false
set_option linter.unusedTactic false

/-!
Verification of the Heinrich TRIZ engine pipeline (Python sources under
`src/heinrich` and `src/problem_parser.py`) against its natural-language
specification.  The pipeline stages are shallowly embedded as executable
Lean functions over rationals (Python floats), `List Char` (Python strings
where character-level operations matter) and `String` (labels compared by
equality).  Data tables that live in YAML/CSV files outside the source tree
(the 39-parameter and 40-principle tables) are modelled from the spec; every
other definition is translated directly from the Python source.
-/

namespace Heinrich

/-! ### Character and list-of-char helpers

Python string primitives used by the pipeline: `str.lower`, substring
containment (`a in b`), prefix tests, splitting and whitespace handling. -/

/-- Model of Python `str.lower()` on a character list. -/
def listToLower (s : List Char) : List Char := s.map Char.toLower

/-- Does `text` begin with `pat`?  Model of `str.startswith`, used to build
substring search. -/
def beginsWith : List Char → List Char → Bool
  | _, [] => true
  | [], _ :: _ => false
  | t :: ts, p :: ps => t = p && beginsWith ts ps

/-- Model of Python substring containment `pat in text`. -/
def containsSeq : List Char → List Char → Bool
  | t, p => beginsWith t p ||
      match t with
      | [] => false
      | _ :: ts => containsSeq ts p

/-- Word characters, Python regex `\w` (ASCII view). -/
def isWordChar (c : Char) : Bool := c.isAlphanum || c = '_'

/-! ### Levenshtein distance

Direct embedding of `ContradictionIdentifier._levenshtein_distance`
(`src/heinrich/pipelines/contradiction_identifier.py`, lines 198-216): the
classic two-row dynamic programme, with the initial swap that makes the
first argument the longer string. -/

/-- One step of the DP: given `c1` (current char of `s1`), the remaining
suffix of `s2`, the cell value `cur` being carried (`current_row[j]`) and the
suffix of the previous row starting at index `j`, produce the remainder of
the current row. -/
def levNextRow (c1 : Char) : List Char → ℕ → List ℕ → List ℕ
  | c2 :: rest, cur, pj :: pj1 :: prest =>
      let ins := pj1 + 1
      let del := cur + 1
      let sub := pj + (if c1 = c2 then 0 else 1)
      cur :: levNextRow c1 rest (min (min ins del) sub) (pj1 :: prest)
  | _, cur, _ => [cur]

/-- Inner loop of `_levenshtein_distance` once `s1` is at least as long as
`s2`: fold the DP rows over `s1`. -/
def levenshteinGo (s1 s2 : List Char) : ℕ :=
  if s2.length = 0 then s1.length
  else
    let init := List.range (s2.length + 1)
    let final := (s1.foldl (fun (acc : List ℕ × ℕ) c1 =>
      (levNextRow c1 s2 (acc.2 + 1) acc.1, acc.2 + 1)) (init, 0)).1
    final.getLastD 0

/-- Model of `_levenshtein_distance(s1, s2)`. -/
def levenshtein (s1 s2 : List Char) : ℕ :=
  if s1.length < s2.length then levenshteinGo s2 s1 else levenshteinGo s1 s2

/-! ### Stable descending sort

Model of Python `list.sort(key=..., reverse=True)`: a stable sort put in
descending key order.  Implemented as a stable insertion sort (each new
element is placed after all earlier elements with an equal or larger key),
which computes the same function on lists as CPython's stable sort with
`reverse=True`. -/

/-- Insert `x` into a descending-sorted list, after equal keys. -/
def insertDesc (key : α → ℚ) (x : α) : List α → List α
  | [] => [x]
  | y :: ys => if key x ≤ key y then y :: insertDesc key x ys else x :: y :: ys

/-- Stable descending sort by a rational key. -/
def sortDesc (key : α → ℚ) (l : List α) : List α :=
  l.foldl (fun acc x => insertDesc key x acc) []

/-! ### Knowledge tables

The YAML data files `39_parameters.yaml` and `40_principles.yaml` are not
part of the source tree; only their loaders are.  Their contents are
modelled from the spec. -/

/-- One of the 40 inventive principles (`40_principles.yaml` record shape:
id, name, description, examples). -/
structure Principle where
  id : ℕ
  name : String
  description : String
  examples : List String
deriving DecidableEq

/-- One of the 39 engineering parameters (`39_parameters.yaml` record shape:
id, name, description). -/
structure Parameter where
  id : ℕ
  name : String
  description : String
deriving DecidableEq

/-- Modelled from the spec: `40_principles.yaml` is absent from the source
tree; spec §3/§6 says it holds 40 records with numeric ids 1-40 plus name,
description and an example list, whose texts the spec does not reproduce
(left empty here — no claim depends on them). -/
def principlesTable : List Principle :=
  (List.range 40).map (fun i => ⟨i + 1, "", "", []⟩)

/-- Modelled from the spec: `39_parameters.yaml` is absent from the source
tree; spec §3/§6 says it holds 39 records with numeric ids 1-39 plus name
and description, whose texts the spec does not reproduce. -/
def parametersTable : List Parameter :=
  (List.range 39).map (fun i => ⟨i + 1, "", ""⟩)

/-! ### Python dict over (int, int) keys

The contradiction matrix is a Python dict keyed by parameter-id pairs.  A
dict is modelled as an ordered association list with unique keys:
assignment replaces the first (only) binding in place or appends a new
one — exactly CPython's insertion-ordered dict semantics. -/

/-- Python `d[k] = v` on an association list. -/
def dictInsert : List ((ℕ × ℕ) × List ℕ) → ℕ × ℕ → List ℕ →
    List ((ℕ × ℕ) × List ℕ)
  | [], k, v => [(k, v)]
  | e :: rest, k, v =>
      if e.1 = k then (k, v) :: rest else e :: dictInsert rest k v

/-- Python `d.get(k)` / `k in d` combined: the binding for `k`, if any. -/
def dictLookup (m : List ((ℕ × ℕ) × List ℕ)) (k : ℕ × ℕ) : Option (List ℕ) :=
  (m.find? (fun e => e.1 = k)).map (fun e => e.2)

/-! ### KnowledgeLoader.load_contradiction_matrix

Embedding of `KnowledgeLoader.load_contradiction_matrix`
(`src/heinrich/knowledge/knowledge_loader.py`, lines 37-53).  The CSV file
is not in the source tree, so the function is taken over its parsed rows:
each row gives an improving id, a worsening id and a principle-id list; the
loop stores the list under both orientations of the key. -/

def load_contradiction_matrix (rows : List ((ℕ × ℕ) × List ℕ)) :
    List ((ℕ × ℕ) × List ℕ) :=
  rows.foldl
    (fun m row =>
      dictInsert (dictInsert m (row.1.1, row.1.2) row.2)
        (row.1.2, row.1.1) row.2)
    []

/-- Symmetry of an association-list matrix under lookup. -/
def SymmetricMatrix (m : List ((ℕ × ℕ) × List ℕ)) : Prop :=
  ∀ a b : ℕ, dictLookup m (a, b) = dictLookup m (b, a)

/-- `KnowledgeLoader.validate_contradiction_matrix` (lines 110-127): true
exactly when every matrix entry references parameter ids present in the
39-parameter table and principle ids present in the 40-principle table.
(The `except` arm of the source catches file and parsing failures, which
sit outside this embedding over already-parsed rows.) -/
def validate_contradiction_matrix (rows : List ((ℕ × ℕ) × List ℕ)) : Bool :=
  let matrix := load_contradiction_matrix rows
  matrix.all (fun e =>
    parametersTable.any (fun p => p.id = e.1.1) &&
    parametersTable.any (fun p => p.id = e.1.2) &&
    e.2.all (fun pid => principlesTable.any (fun q => q.id = pid)))

/-! ### EffectsLookup

Embedding of `src/heinrich/pipelines/effects_lookup.py`.  The effects
database is hard-coded in `_load_effects_database` (lines 38-185); the dict
is modelled as an insertion-ordered association list. -/

/-- `ScientificEffect` dataclass (lines 10-20). -/
structure ScientificEffect where
  id : String
  name : String
  description : String
  category : String
  applications : List String
  related_principles : List ℕ
  technical_domains : List String
deriving DecidableEq

/-- `EffectRecommendation` dataclass (lines 22-29). -/
structure EffectRecommendation where
  effect : ScientificEffect
  relevance_score : ℚ
  reasoning : String
  combination_principles : List ℕ
deriving DecidableEq

/-- The ten hard-coded effects of `_load_effects_database` (lines 43-183),
each named for reference in proofs. -/
def thermalExpansionEffect : ScientificEffect :=
  ⟨"thermal_expansion", "Thermal Expansion",
    "Materials expand when heated and contract when cooled", "Thermal",
    ["Bi-metal strips in thermostats", "Expansion joints in bridges",
      "Shrink-fit assembly"],
    [37, 15, 35], ["Mechanical", "Civil", "Manufacturing"]⟩

def shapeMemoryEffect : ScientificEffect :=
  ⟨"shape_memory", "Shape Memory Effect",
    "Certain alloys return to their original shape when heated",
    "Material Science",
    ["Shape memory stents", "Self-deploying structures",
      "Temperature-activated fasteners"],
    [35, 15, 25], ["Medical", "Aerospace", "Robotics"]⟩

def piezoelectricEffect : ScientificEffect :=
  ⟨"piezoelectric", "Piezoelectric Effect",
    "Materials generate electricity when mechanically stressed",
    "Electrical",
    ["Quartz watches", "Ultrasonic transducers",
      "Energy harvesting from vibration"],
    [15, 18, 23], ["Electronics", "Sensors", "Energy"]⟩

def electrochromicEffect : ScientificEffect :=
  ⟨"electrochromic", "Electrochromic Effect",
    "Materials change color when electric voltage is applied", "Optical",
    ["Smart windows", "Anti-glare mirrors", "Display technologies"],
    [32, 35, 16], ["Architecture", "Automotive", "Displays"]⟩

def superconductivityEffect : ScientificEffect :=
  ⟨"superconductivity", "Superconductivity",
    "Zero electrical resistance at very low temperatures", "Electrical",
    ["MRI machines", "Maglev trains", "Power transmission"],
    [36, 2, 12], ["Medical", "Transportation", "Energy"]⟩

def aerogelEffect : ScientificEffect :=
  ⟨"aerogel", "Aerogel Properties",
    "Extremely low density solid with excellent insulation properties",
    "Material Science",
    ["Thermal insulation", "Acoustic damping", "Lightweight structures"],
    [31, 8, 40], ["Aerospace", "Construction", "Energy"]⟩

def sonoluminescenceEffect : ScientificEffect :=
  ⟨"sonoluminescence", "Sonoluminescence",
    "Light emission from collapsing bubbles in liquid under sound waves",
    "Acoustic",
    ["Sonochemistry", "Medical imaging", "Cleaning technologies"],
    [18, 31, 16], ["Chemistry", "Medical", "Industrial"]⟩

def capillaryActionEffect : ScientificEffect :=
  ⟨"capillary_action", "Capillary Action",
    "Liquid movement through narrow spaces against gravity", "Fluid",
    ["Wick in candles", "Plant root systems", "Porous media flow"],
    [31, 17, 29], ["Chemical", "Agricultural", "Materials"]⟩

def thermoelectricEffect : ScientificEffect :=
  ⟨"thermoelectric", "Thermoelectric Effect",
    "Direct conversion between temperature differences and electric voltage",
    "Electrical",
    ["Waste heat recovery", "Temperature sensors",
      "Portable refrigerators"],
    [22, 23, 35], ["Energy", "Sensors", "Electronics"]⟩

def magnetorheologicalEffect : ScientificEffect :=
  ⟨"magnetorheological", "Magnetorheological Effect",
    "Fluids change viscosity in magnetic fields", "Material Science",
    ["Adaptive shock absorbers", "Clutches and brakes",
      "Seismic dampers"],
    [15, 35, 16], ["Automotive", "Civil", "Robotics"]⟩

/-- `EffectsLookup._load_effects_database` (lines 38-185): the effects
dict, in insertion order. -/
def effectsDatabase : List (String × ScientificEffect) :=
  [("thermal_expansion", thermalExpansionEffect),
   ("shape_memory", shapeMemoryEffect),
   ("piezoelectric", piezoelectricEffect),
   ("electrochromic", electrochromicEffect),
   ("superconductivity", superconductivityEffect),
   ("aerogel", aerogelEffect),
   ("sonoluminescence", sonoluminescenceEffect),
   ("capillary_action", capillaryActionEffect),
   ("thermoelectric", thermoelectricEffect),
   ("magnetorheological", magnetorheologicalEffect)]

/-- `_calculate_domain_match` (lines 287-304): 0.3 per keyword hit in an
application string, 0.2 per hit in a domain tag, capped at 1.0. -/
def calculate_domain_match (effect : ScientificEffect)
    (domain_keywords : List String) : ℚ :=
  let keywordsLower := domain_keywords.map (fun kw => listToLower kw.data)
  let s := effect.applications.foldl
    (fun s app => keywordsLower.foldl
      (fun s kw =>
        if containsSeq (listToLower app.data) kw then s + 0.3 else s) s) 0
  let s := effect.technical_domains.foldl
    (fun s dom => keywordsLower.foldl
      (fun s kw =>
        if containsSeq (listToLower dom.data) kw then s + 0.2 else s) s) s
  min s 1

/-- `_matches_domain_keywords` (lines 306-320). -/
def matches_domain_keywords (effect : ScientificEffect)
    (domain_keywords : List String) : Bool :=
  let keywordsLower := domain_keywords.map (fun kw => listToLower kw.data)
  effect.applications.any
    (fun app => keywordsLower.any
      (fun kw => containsSeq (listToLower app.data) kw)) ||
  effect.technical_domains.any
    (fun dom => keywordsLower.any
      (fun kw => containsSeq (listToLower dom.data) kw))

/-- Reasoning text of `_generate_effect_reasoning` (lines 340-360). -/
def generate_effect_reasoning (effect : ScientificEffect)
    (common_principles : List ℕ) : String :=
  let principleNames := common_principles.map (fun pid =>
    if pid ∈ [1, 2, 3, 4, 5] then "separation principles"
    else if pid ∈ [15, 35] then "dynamics and adaptation"
    else "principle " ++ toString pid)
  let reasoning := "The '" ++ effect.name ++
    "' effect can enhance solutions based on " ++
    String.intercalate " and " principleNames ++ ". "
  match effect.applications with
  | [] => reasoning
  | app :: _ =>
      reasoning ++ "For example, it has been used in " ++
        String.mk (listToLower app.data) ++ "."

/-- The loop body of `find_effects_for_principles` (lines 201-221): the
principle overlap (`set(principle_ids) & set(effect.related_principles)`,
modelled as a deduplicated filtered list), the skip on empty overlap, the
overlap-ratio relevance with optional domain-match averaging, and the 0.2
threshold. -/
def principles_effect_step (principle_ids : List ℕ)
    (domain_keywords : List String) (e : String × ScientificEffect)
    (acc : List EffectRecommendation) : List EffectRecommendation :=
  let common := principle_ids.dedup.filter
    (fun p => e.2.related_principles.contains p)
  if common.isEmpty then acc
  else
    let relevance : ℚ := (common.length : ℚ) / (principle_ids.length : ℚ)
    let relevance :=
      if ¬ domain_keywords.isEmpty then
        (relevance + calculate_domain_match e.2 domain_keywords) / 2
      else relevance
    if relevance > 0.2 then
      ⟨e.2, relevance, generate_effect_reasoning e.2 common,
        common⟩ :: acc
    else acc

/-- `find_effects_for_principles` (lines 187-226): the loop body folded
over the database, sorted by descending relevance.  A `None` or empty
`domain_keywords` argument is the falsy case, modelled by the empty
list. -/
def find_effects_for_principles (principle_ids : List ℕ)
    (domain_keywords : List String) : List EffectRecommendation :=
  let recs := effectsDatabase.foldr
    (principles_effect_step principle_ids domain_keywords) []
  sortDesc (fun r => r.relevance_score) recs

/-- `_calculate_contradiction_relevance` (lines 322-338). -/
def calculate_contradiction_relevance (effect : ScientificEffect)
    (improving_param worsening_param : ℕ) : ℚ :=
  let principleRelevance : ℚ :=
    ((effect.related_principles.dedup.filter
      (fun p => p ∈ [15, 35, 2, 1])).length : ℚ) / 4
  let paramRelevance : ℚ :=
    if improving_param ∈ [9, 19, 21] ∧
        (effect.technical_domains.contains "Energy" ∨
          effect.technical_domains.contains "Electronics") then 0.3 else 0
  let paramRelevance :=
    if worsening_param ∈ [1, 14] ∧
        (effect.technical_domains.contains "Materials" ∨
          effect.technical_domains.contains "Mechanical") then
      paramRelevance + 0.3
    else paramRelevance
  min (principleRelevance + paramRelevance) 1

/-- Reasoning text of `_generate_contradiction_reasoning` (lines 362-378). -/
def generate_contradiction_reasoning (effect : ScientificEffect)
    (improving_param worsening_param : ℕ) : String :=
  let paramNames : List (ℕ × String) :=
    [(1, "weight"), (9, "speed"), (14, "strength"),
      (19, "energy consumption"), (21, "power"), (27, "reliability")]
  let impName := ((paramNames.find? (fun e => e.1 = improving_param)).map
    (fun e => e.2)).getD ("parameter " ++ toString improving_param)
  let worsName := ((paramNames.find? (fun e => e.1 = worsening_param)).map
    (fun e => e.2)).getD ("parameter " ++ toString worsening_param)
  "The '" ++ effect.name ++
    "' effect can help resolve the contradiction between improving " ++
    impName ++ " while avoiding degradation of " ++ worsName ++
    ". This effect is particularly relevant for " ++
    String.intercalate ", " effect.technical_domains ++ " applications."

/-- Python set-insertion on a deduplicated list (models accumulating ids in
`relevant_effect_ids = set()`; set iteration order is unspecified, so only
the membership content matters downstream). -/
def setAdd (acc : List String) (x : String) : List String :=
  if acc.contains x then acc else acc ++ [x]

/-- The `relevant_effect_ids` accumulation of `find_effects_for_contradiction`
(lines 241-259): the fixed `param_to_effects` table consulted for each of
the two parameters, plus any effect whose applications or domain tags match
a domain keyword. -/
def relevant_effect_ids (improving_param worsening_param : ℕ)
    (domain_keywords : List String) : List String :=
  let paramToEffects : List (ℕ × List String) :=
    [(9, ["thermal_expansion", "shape_memory", "piezoelectric"]),
     (14, ["shape_memory", "magnetorheological", "thermal_expansion"]),
     (17, ["thermal_expansion", "shape_memory", "superconductivity"]),
     (19, ["thermoelectric", "capillary_action", "aerogel"]),
     (21, ["piezoelectric", "thermoelectric", "magnetorheological"])]
  let relevantIds := [improving_param, worsening_param].foldl
    (fun acc p =>
      match paramToEffects.find? (fun e => e.1 = p) with
      | some e => e.2.foldl setAdd acc
      | none => acc)
    []
  if ¬ domain_keywords.isEmpty then
    effectsDatabase.foldl
      (fun acc e =>
        if matches_domain_keywords e.2 domain_keywords then
          setAdd acc e.2.id
        else acc)
      relevantIds
  else relevantIds

/-- The loop body of `find_effects_for_contradiction` (lines 262-280):
resolve the candidate id in the database and keep it when its
contradiction relevance exceeds 0.1. -/
def contradiction_effect_step (improving_param worsening_param : ℕ)
    (eid : String) (acc : List EffectRecommendation) :
    List EffectRecommendation :=
  match effectsDatabase.find? (fun e => e.1 = eid) with
  | some e =>
      let relevance := calculate_contradiction_relevance e.2
        improving_param worsening_param
      if relevance > 0.1 then
        ⟨e.2, relevance,
          generate_contradiction_reasoning e.2 improving_param
            worsening_param,
          e.2.related_principles⟩ :: acc
      else acc
  | none => acc

/-- `find_effects_for_contradiction` (lines 228-285): every candidate id
resolved and thresholded by the loop body, sorted by descending
relevance. -/
def find_effects_for_contradiction (improving_param worsening_param : ℕ)
    (domain_keywords : List String) : List EffectRecommendation :=
  let recs := (relevant_effect_ids improving_param worsening_param
      domain_keywords).foldr
    (contradiction_effect_step improving_param worsening_param) []
  sortDesc (fun r => r.relevance_score) recs

/-! ### PrincipleSelector

Embedding of `src/heinrich/pipelines/principle_selector.py`.  The class
state set up by `__init__` (lines 33-44) consists of the principle table
(from `40_principles.yaml`, taken as a parameter here) and the hard-coded
contradiction matrix; crucially, `__init__` never assigns
`self.parameters_data`, yet `_generate_reasoning` reads it. -/

/-- `PrincipleRecommendation` dataclass (lines 10-19). -/
structure PrincipleRecommendation where
  principle_id : ℕ
  principle_name : String
  principle_description : String
  relevance_score : ℚ
  reasoning : String
  examples : List String
deriving DecidableEq

/-- `PrincipleSelectionResult` dataclass (lines 21-28). -/
structure PrincipleSelectionResult where
  recommendations : List PrincipleRecommendation
  primary_principles : List PrincipleRecommendation
  supporting_principles : List PrincipleRecommendation
  matrix_source : String
deriving DecidableEq

/-- A raised Python exception, as pipeline code can produce it. -/
inductive PyError where
  | attributeError (attr : String)
deriving DecidableEq

/-- The `known_relationships` literal of `_load_contradiction_matrix`
(lines 54-72). -/
def known_relationships : List ((ℕ × ℕ) × List ℕ) :=
  [((9, 19), [15, 2, 35, 18]),
   ((1, 14), [1, 8, 15, 40]),
   ((9, 28), [28, 32, 35, 13]),
   ((36, 27), [1, 13, 22, 35]),
   ((39, 27), [2, 25, 35, 13]),
   ((3, 14), [1, 8, 14, 15])]

/-- `PrincipleSelector._load_contradiction_matrix` (lines 46-79): the same
double-insertion loop as the knowledge loader, over the hard-coded
relationship list. -/
def selectorMatrix : List ((ℕ × ℕ) × List ℕ) :=
  known_relationships.foldl
    (fun m row =>
      dictInsert (dictInsert m (row.1.1, row.1.2) row.2)
        (row.1.2, row.1.1) row.2)
    []

/-- `_is_physical_contradiction` (lines 151-155). -/
def is_physical_contradiction (param1 param2 : ℕ) : Bool :=
  param1 ∈ [1, 2, 3, 4, 5, 6, 7, 8, 9, 17] &&
    param2 ∈ [1, 2, 3, 4, 5, 6, 7, 8, 9, 17]

/-- `_is_technical_contradiction` (lines 157-160). -/
def is_technical_contradiction (param1 param2 : ℕ) : Bool :=
  ! is_physical_contradiction param1 param2

/-- `_heuristic_principle_selection` (lines 136-149).  The final fallback
`[13, 1, 8, 15]` is unreachable because the second branch tests the
negation of the first, but it is kept as in the source. -/
def heuristic_principle_selection (improving_param worsening_param : ℕ) :
    List ℕ :=
  if is_physical_contradiction improving_param worsening_param then
    [1, 2, 3, 7]
  else if is_technical_contradiction improving_param worsening_param then
    [15, 35, 36, 16]
  else
    [13, 1, 8, 15]

/-- `_calculate_relevance_score` (lines 162-179).  (The source also reads
`self.principles[principle_id]` into an unused local; the caller guarantees
the key is present.) -/
def calculate_relevance_score (principle_id improving_param
    worsening_param : ℕ) : ℚ :=
  let baseScore : ℚ :=
    if (dictLookup selectorMatrix (improving_param, worsening_param)).isSome
    then 0.8 else 0.4
  let baseScore :=
    if principle_id ∈ [1, 8, 13, 15, 35] then baseScore + 0.1 else baseScore
  let baseScore :=
    if improving_param = 9 ∧ principle_id ∈ [15, 18, 28] then
      baseScore + 0.15
    else baseScore
  min baseScore 1

/-- `_generate_reasoning` (lines 181-199): its first statement after the
(field-present) dict reads evaluates
`self.parameters_data['parameters']`, but `__init__` (lines 33-44) never
assigns `self.parameters_data`, so every call raises `AttributeError`
before any reasoning text is produced. -/
def generate_reasoning (_principle_id _improving_param
    _worsening_param : ℕ) : Except PyError String :=
  Except.error (PyError.attributeError "parameters_data")

/-- The recommendation-building loop of `select_principles`
(lines 100-119), parameterized over the reasoning generator so that the
partition logic can be stated independently of the `parameters_data` bug. -/
def buildRecommendations
    (reason : ℕ → ℕ → ℕ → Except PyError String)
    (principles : List Principle) (improving_param worsening_param : ℕ) :
    List ℕ → Except PyError (List PrincipleRecommendation)
  | [] => Except.ok []
  | pid :: rest =>
      match principles.find? (fun p => p.id = pid) with
      | none =>
          buildRecommendations reason principles improving_param
            worsening_param rest
      | some pd => do
          let relevance := calculate_relevance_score pid improving_param
            worsening_param
          let reasoning ← reason pid improving_param worsening_param
          let tail ← buildRecommendations reason principles improving_param
            worsening_param rest
          Except.ok (⟨pid, pd.name, pd.description, relevance, reasoning,
            pd.examples.take 3⟩ :: tail)

/-- `select_principles` (lines 81-134), parameterized over the reasoning
generator. -/
def select_principles_core
    (reason : ℕ → ℕ → ℕ → Except PyError String)
    (principles : List Principle) (improving_param worsening_param : ℕ) :
    Except PyError PrincipleSelectionResult := do
  let matrixHit := dictLookup selectorMatrix
    (improving_param, worsening_param)
  let principleIds :=
    match matrixHit with
    | some ids => ids
    | none =>
        heuristic_principle_selection improving_param worsening_param
  let recs ← buildRecommendations reason principles improving_param
    worsening_param principleIds
  let recommendations := sortDesc (fun r => r.relevance_score) recs
  let primary := recommendations.filter
    (fun r => r.relevance_score ≥ 0.7)
  let supporting := recommendations.filter
    (fun r => r.relevance_score < 0.7)
  Except.ok ⟨recommendations, primary, supporting,
    if matrixHit.isSome then "contradiction_matrix" else "heuristic"⟩

/-- `select_principles` as the source runs it, with the actual
`_generate_reasoning`. -/
def select_principles (principles : List Principle)
    (improving_param worsening_param : ℕ) :
    Except PyError PrincipleSelectionResult :=
  select_principles_core generate_reasoning principles improving_param
    worsening_param

/-! ### ContradictionIdentifier

Embedding of `src/heinrich/pipelines/contradiction_identifier.py`.  The
parameter table comes from `39_parameters.yaml` (a data file outside the
source tree) and is therefore a parameter of every function.  The raw-text
regex sweeps of `_find_improvement_parameters` /
`_find_worsening_parameters` (the `re.finditer` loops) yield a list of
captured candidate keywords; those keyword lists are taken as inputs here
and everything downstream of them is embedded directly. -/

/-- `TechnicalContradiction` dataclass (lines 11-20). -/
structure TechnicalContradiction where
  improving_parameter : ℕ
  improving_parameter_name : String
  worsening_parameter : ℕ
  worsening_parameter_name : String
  confidence_score : ℚ
  reasoning : String
deriving DecidableEq

/-- `ContradictionResult` dataclass (lines 22-28). -/
structure ContradictionResult where
  contradictions : List TechnicalContradiction
  primary_contradiction : Option TechnicalContradiction
  alternative_contradictions : List TechnicalContradiction
deriving DecidableEq

/-- Tokenization `re.findall(r'\b\w+\b', s)`: the maximal runs of word
characters in `s`. -/
def tokenizeWords : List Char → List (List Char)
  | [] => []
  | c :: rest =>
      if isWordChar c then
        let w := c :: rest.takeWhile isWordChar
        w :: tokenizeWords (rest.dropWhile isWordChar)
      else
        tokenizeWords rest
termination_by s => s.length
decreasing_by
  · simp only [List.length_cons]
    exact Nat.lt_succ_of_le (List.Sublist.length_le (List.dropWhile_sublist _))
  · simp only [List.length_cons]
    exact Nat.lt_succ_self _

/-- The stop-word list of `_build_parameter_keywords` (line 62). -/
def stopWords : List (List Char) :=
  ["of".data, "the".data, "and".data, "or".data, "to".data, "in".data,
    "on".data, "at".data, "by".data, "for".data, "with".data]

/-- `_build_parameter_keywords` (lines 41-67): per parameter, the word
tokens of its lowercased name and description, with stop words and tokens
of length ≤ 2 removed, deduplicated (`list(set(...))`, whose order is
unspecified — modelled as `dedup`). -/
def build_parameter_keywords (params : List Parameter) :
    List (ℕ × List (List Char)) :=
  params.map (fun p =>
    let keyTerms := tokenizeWords (listToLower p.name.data) ++
      tokenizeWords (listToLower p.description.data)
    let keyTerms := keyTerms.filter
      (fun w => ¬ w ∈ stopWords ∧ w.length > 2)
    (p.id, keyTerms.dedup))

/-- The per-parameter scoring loop inside `_match_keyword_to_parameters`
(lines 180-191): 1.0 on exact lowercased membership, otherwise the maximum
over the parameter's keywords of 0.7 for a substring match in either
direction, else 0.5 for Levenshtein distance ≤ 2. -/
def keywordScore (keywordLower : List Char)
    (keywords : List (List Char)) : ℚ :=
  if (keywords.map listToLower).contains keywordLower then 1
  else
    keywords.foldl
      (fun score pk =>
        if containsSeq pk keywordLower || containsSeq keywordLower pk then
          max score 0.7
        else if levenshtein keywordLower pk ≤ 2 then max score 0.5
        else score)
      0

/-- `_match_keyword_to_parameters` (lines 173-196): score the keyword
against every parameter's keyword set and keep the matches above 0.3. -/
def match_keyword_to_parameters (keyword : List Char)
    (parameterKeywords : List (ℕ × List (List Char))) : List (ℕ × ℚ) :=
  let keywordLower := listToLower keyword
  parameterKeywords.foldr
    (fun p acc =>
      let score := keywordScore keywordLower p.2
      if score > 0.3 then (p.1, score) :: acc else acc)
    []

/-- The dict-with-max accumulation shared by the two candidate finders
(lines 140-145 and 166-171): `scored[pid] = max(scored.get(pid, 0), s)`,
keeping first-insertion order. -/
def maxUpdate (acc : List (ℕ × ℚ)) (pid : ℕ) (s : ℚ) : List (ℕ × ℚ) :=
  if acc.any (fun e => e.1 = pid) then
    acc.map (fun e => if e.1 = pid then (e.1, max e.2 s) else e)
  else acc ++ [(pid, max 0 s)]

/-- `_find_improvement_parameters` (lines 121-145) downstream of the regex
sweep: every extracted candidate keyword is fuzzy-matched and the scores
are max-merged per parameter id.  (`scored.get(pid, 0)` makes the stored
score `max 0 s` on first insertion.) -/
def find_improvement_parameters
    (parameterKeywords : List (ℕ × List (List Char)))
    (extractedKeywords : List (List Char)) : List (ℕ × ℚ) :=
  let candidates := extractedKeywords.flatMap
    (fun kw => match_keyword_to_parameters kw parameterKeywords)
  candidates.foldl (fun acc c => maxUpdate acc c.1 c.2) []

/-- `_find_worsening_parameters` (lines 147-171): identical aggregation
over the worsening-pattern captures. -/
def find_worsening_parameters
    (parameterKeywords : List (ℕ × List (List Char)))
    (extractedKeywords : List (List Char)) : List (ℕ × ℚ) :=
  let candidates := extractedKeywords.flatMap
    (fun kw => match_keyword_to_parameters kw parameterKeywords)
  candidates.foldl (fun acc c => maxUpdate acc c.1 c.2) []

/-- Name of a parameter id in the table
(`next(p for p in self.parameters if p['id'] == param_id)`; candidate ids
always originate from the same table, so the search succeeds). -/
def parameterName (params : List Parameter) (pid : ℕ) : String :=
  ((params.find? (fun p => p.id = pid)).map (fun p => p.name)).getD ""

/-- `identify_contradiction` (lines 69-119) downstream of the regex sweeps:
cross improvement × worsening candidates excluding self-pairs, confidence
is the mean of the two scores, sort descending, primary is the head,
alternatives are the remaining entries with confidence > 0.3. -/
def identify_contradiction (params : List Parameter)
    (improvementKeywords worseningKeywords : List (List Char)) :
    ContradictionResult :=
  let parameterKeywords := build_parameter_keywords params
  let improvementCandidates :=
    find_improvement_parameters parameterKeywords improvementKeywords
  let worseningCandidates :=
    find_worsening_parameters parameterKeywords worseningKeywords
  let contradictions := improvementCandidates.flatMap
    (fun ic => worseningCandidates.filterMap
      (fun wc =>
        if ic.1 ≠ wc.1 then
          let impName := parameterName params ic.1
          let worsName := parameterName params wc.1
          some ⟨ic.1, impName, wc.1, worsName, (ic.2 + wc.2) / 2,
            "Identified contradiction between improving " ++ impName ++
              " and worsening " ++ worsName⟩
        else none))
  let contradictions := sortDesc (fun c => c.confidence_score) contradictions
  { contradictions := contradictions
    primary_contradiction := contradictions.head?
    alternative_contradictions :=
      contradictions.tail.filter (fun c => c.confidence_score > 0.3) }

/-! ### AdaptationPlanner

Embedding of `_calculate_adaptation_confidence`
(`src/heinrich/pipelines/adaptation_planner.py`, lines 389-407).  Concepts
travel between stages as dicts; only the two keys the function reads
(`concept.get('estimated_complexity')`, `concept.get('innovation_level')`)
are modelled. -/

/-- The `AdaptationContext` dataclass (lines 9-21). -/
structure AdaptationContext where
  industry : String
  company_size : String
  budget_level : String
  timeline : String
  technical_expertise : String
  risk_tolerance : String
  existing_infrastructure : List String
  regulatory_constraints : List String
  market_requirements : List String
deriving DecidableEq

/-- The slice of a concept dict read by the confidence calculation
(`concept.get(...)` returns `None` for a missing key). -/
structure ConceptFields where
  estimated_complexity : Option String
  innovation_level : Option String
deriving DecidableEq

/-- `_calculate_adaptation_confidence` (lines 389-407): base 0.5, +0.2 per
"medium" context field, −0.2 for each of the two extreme-constraint
combinations, clamped to [0.1, 1.0]. -/
def calculate_adaptation_confidence (concept : ConceptFields)
    (context : AdaptationContext) : ℚ :=
  let confidence : ℚ := 0.5
  let confidence :=
    if context.budget_level = "medium" then confidence + 0.2 else confidence
  let confidence :=
    if context.timeline = "medium" then confidence + 0.2 else confidence
  let confidence :=
    if context.technical_expertise = "medium" then confidence + 0.2
    else confidence
  let confidence :=
    if context.budget_level = "low" ∧
        concept.estimated_complexity = some "High" then
      confidence - 0.2
    else confidence
  let confidence :=
    if context.timeline = "short" ∧
        concept.innovation_level = some "Breakthrough" then
      confidence - 0.2
    else confidence
  max 0.1 (min 1 confidence)

/-! ### ProblemParser

Embedding of `src/problem_parser.py`.  Text is a `List Char`; the small
fixed regexes reduce to literal-alternation search, keyword containment and
literal-plus-word capture, embedded as such. -/

/-- `ParsedProblem` dataclass (lines 12-22). -/
structure ParsedProblem where
  original_text : List Char
  normalized_description : List Char
  technical_system : Option (List Char)
  desired_improvement : Option (List Char)
  undesired_consequence : Option (List Char)
  constraints : List (List Char)
  context : List (String × String)
deriving DecidableEq

/-- Python `str.strip()`: drop leading and trailing whitespace. -/
def stripWs (s : List Char) : List Char :=
  ((s.dropWhile Char.isWhitespace).reverse.dropWhile
    Char.isWhitespace).reverse

/-- Collapse every whitespace run to a single space
(`re.sub(r'\s+', ' ', ...)`); the boolean records whether the previous
character was part of a whitespace run. -/
def collapseWsGo : List Char → Bool → List Char
  | [], _ => []
  | c :: rest, prevWs =>
      if c.isWhitespace then
        if prevWs then collapseWsGo rest true
        else ' ' :: collapseWsGo rest true
      else c :: collapseWsGo rest false

/-- `_normalize_text` (lines 76-81): strip, collapse whitespace,
lowercase. -/
def normalize_text (text : List Char) : List Char :=
  listToLower (collapseWsGo (stripWs text) false)

/-- Leftmost regex-alternation search (`re.search` over a pattern like
`(car|vehicle|automobile)`): scan positions left to right, trying the
alternatives in listed order at each position; return the matched
alternative (`match.group(1)`). -/
def searchAlternation (text : List Char) (alternatives : List (List Char)) :
    Option (List Char) :=
  match alternatives.find? (fun a => beginsWith text a) with
  | some a => some a
  | none =>
      match text with
      | [] => none
      | _ :: ts => searchAlternation ts alternatives

/-- `_extract_technical_system` (lines 83-97): first of the three
alternation patterns that matches anywhere in the text. -/
def extract_technical_system (text : List Char) : Option (List Char) :=
  let patterns : List (List (List Char)) :=
    [["car".data, "vehicle".data, "automobile".data],
     ["engine".data, "motor".data],
     ["machine".data, "device".data, "system".data]]
  patterns.foldr
    (fun pat acc =>
      match searchAlternation text pat with
      | some w => some w
      | none => acc)
    none

/-- The `improvement_keywords` list of `__init__` (lines 29-32). -/
def improvementKeywords : List (List Char) :=
  ["faster".data, "stronger".data, "lighter".data, "cheaper".data,
    "more efficient".data, "increase".data, "improve".data,
    "enhance".data, "optimize".data, "better".data]

/-- The `consequence_keywords` list of `__init__` (lines 34-37). -/
def consequenceKeywords : List (List Char) :=
  ["but".data, "however".data, "causes".data, "results in".data,
    "leads to".data, "at the cost of".data, "unfortunately".data,
    "downside".data]

/-- `_extract_desired_improvement` (lines 99-104): first keyword (in list
order) contained in the text. -/
def extract_desired_improvement (text : List Char) : Option (List Char) :=
  improvementKeywords.find? (fun k => containsSeq text k)

/-- The remainder of `text` after the first occurrence of `pat`
(`text.split(pat, 1)[1]` when `pat` occurs). -/
def remainderAfterFirst (text pat : List Char) : Option (List Char) :=
  if beginsWith text pat then some (text.drop pat.length)
  else
    match text with
    | [] => none
    | _ :: ts => remainderAfterFirst ts pat

/-- `_extract_undesired_consequence` (lines 106-115): for the first
connective keyword present, the stripped remainder after it, truncated to
50 characters. -/
def extract_undesired_consequence (text : List Char) :
    Option (List Char) :=
  match consequenceKeywords.find? (fun k => containsSeq text k) with
  | none => none
  | some k =>
      (remainderAfterFirst text k).map (fun r => (stripWs r).take 50)

/-- Non-overlapping captures of a regex `lit(\w+)` where `lit` is a
literal ending in a space (`re.findall(r'without (\w+)', ...)` and
friends): at each position, if the literal matches and at least one word
character follows, capture the maximal word-character run and resume after
it; otherwise advance one character. -/
def findCaptures (lit : List Char) : List Char → List (List Char)
  | [] => []
  | c :: ts =>
      if beginsWith (c :: ts) lit then
        match ((c :: ts).drop lit.length).takeWhile isWordChar with
        | [] => findCaptures lit ts
        | w0 :: wrest =>
            (w0 :: wrest) :: findCaptures lit
              (((c :: ts).drop lit.length).drop (w0 :: wrest).length)
      else findCaptures lit ts
termination_by t => t.length
decreasing_by
  · simp only [List.length_cons]
    exact Nat.lt_succ_self _
  · simp only [List.length_drop, List.length_cons]
    omega
  · simp only [List.length_cons]
    exact Nat.lt_succ_self _

/-- `_extract_constraints` (lines 117-132): all captures of the three
constraint patterns, concatenated in pattern order. -/
def extract_constraints (text : List Char) : List (List Char) :=
  let patterns : List (List Char) :=
    ["without ".data, "must not ".data, "cannot ".data]
  patterns.flatMap (fun lit => findCaptures lit text)

/-- `_extract_context` (lines 134-146): coarse domain tag by substring
presence, in priority order. -/
def extract_context (text : List Char) : List (String × String) :=
  let domain :=
    if ["car".data, "vehicle".data, "engine".data].any
        (fun w => containsSeq text w) then "automotive"
    else if ["machine".data, "manufacturing".data].any
        (fun w => containsSeq text w) then "manufacturing"
    else "general"
  [("domain", domain)]

/-- `ProblemParser.parse` (lines 39-74). -/
def parse (problem_text : List Char) : ParsedProblem :=
  let normalized := normalize_text problem_text
  { original_text := problem_text
    normalized_description := normalized
    technical_system := extract_technical_system normalized
    desired_improvement := extract_desired_improvement normalized
    undesired_consequence := extract_undesired_consequence normalized
    constraints := extract_constraints normalized
    context := extract_context normalized }

/-! ## Theorems

Supporting lemmas first, then the claim theorems. -/

theorem mem_insertDesc (key : α → ℚ) (x : α) (l : List α) (z : α) :
    z ∈ insertDesc key x l ↔ z = x ∨ z ∈ l := by
  induction l with
  | nil => simp [insertDesc]
  | cons y ys ih =>
      simp only [insertDesc]
      split <;> simp [ih] <;> try tauto

theorem mem_sortDesc_aux (key : α → ℚ) (l acc : List α) (z : α) :
    z ∈ l.foldl (fun acc x => insertDesc key x acc) acc ↔ z ∈ acc ∨ z ∈ l := by
  induction l generalizing acc with
  | nil => simp
  | cons y ys ih =>
      simp only [List.foldl_cons, ih, mem_insertDesc, List.mem_cons]
      tauto

theorem mem_sortDesc (key : α → ℚ) (l : List α) (z : α) :
    z ∈ sortDesc key l ↔ z ∈ l := by
  simp [sortDesc, mem_sortDesc_aux]

theorem dictLookup_insert (m : List ((ℕ × ℕ) × List ℕ)) (k : ℕ × ℕ)
    (v : List ℕ) (k' : ℕ × ℕ) :
    dictLookup (dictInsert m k v) k' =
      if k' = k then some v else dictLookup m k' := by
  induction m with
  | nil =>
      by_cases h : k' = k
      · subst h
        simp [dictInsert, dictLookup, List.find?]
      · have h2 : ¬ k = k' := fun hc => h hc.symm
        simp [dictInsert, dictLookup, List.find?, h, h2]
  | cons e rest ih =>
      by_cases he : e.1 = k
      · by_cases h : k' = k
        · subst h
          simp [dictInsert, dictLookup, List.find?, he]
        · have h2 : ¬ k = k' := fun hc => h hc.symm
          have h3 : ¬ e.1 = k' := by rw [he]; exact h2
          simp [dictInsert, dictLookup, List.find?, he, h, h2, h3]
      · by_cases h4 : e.1 = k'
        · have h : ¬ k' = k := by
            intro hc
            rw [hc] at h4
            exact he h4
          simp [dictInsert, dictLookup, List.find?, he, h4, h]
        · simp only [dictInsert, if_neg he]
          simp only [dictLookup, List.find?] at ih ⊢
          simp [h4, ih]

theorem symmetric_insert_both (m : List ((ℕ × ℕ) × List ℕ)) (p q : ℕ)
    (v : List ℕ) (hm : SymmetricMatrix m) :
    SymmetricMatrix (dictInsert (dictInsert m (p, q) v) (q, p) v) := by
  intro a b
  rw [dictLookup_insert, dictLookup_insert, dictLookup_insert,
    dictLookup_insert]
  by_cases h1 : (a, b) = (q, p)
  · have h2 : (b, a) = (p, q) := by
      rw [Prod.ext_iff] at h1 ⊢
      exact ⟨h1.2, h1.1⟩
    by_cases h3 : (b, a) = (q, p) <;> simp [h1, h2, h3]
  · by_cases h2 : (a, b) = (p, q)
    · have h3 : (b, a) = (q, p) := by
        rw [Prod.ext_iff] at h2 ⊢
        exact ⟨h2.2, h2.1⟩
      simp [h1, h2, h3]
    · have h3 : ¬ (b, a) = (q, p) := by
        intro hc
        rw [Prod.ext_iff] at hc h2
        exact h2 ⟨hc.2, hc.1⟩
      have h4 : ¬ (b, a) = (p, q) := by
        intro hc
        rw [Prod.ext_iff] at hc h1
        exact h1 ⟨hc.2, hc.1⟩
      simp [h1, h2, h3, h4, hm a b]

theorem load_matrix_symmetric_aux (rows : List ((ℕ × ℕ) × List ℕ))
    (m : List ((ℕ × ℕ) × List ℕ)) (hm : SymmetricMatrix m) :
    SymmetricMatrix (rows.foldl
      (fun m row =>
        dictInsert (dictInsert m (row.1.1, row.1.2) row.2)
          (row.1.2, row.1.1) row.2) m) := by
  induction rows generalizing m with
  | nil => exact hm
  | cons r rest ih =>
      exact ih _ (symmetric_insert_both m r.1.1 r.1.2 r.2 hm)

theorem load_matrix_symmetric (rows : List ((ℕ × ℕ) × List ℕ)) :
    SymmetricMatrix (load_contradiction_matrix rows) := by
  refine load_matrix_symmetric_aux rows [] ?_
  intro a b
  rfl

/-- C8: parsing the empty string returns, without raising, a
`ParsedProblem` whose technical system, desired improvement and undesired
consequence are all `none`, whose constraint list is empty and whose
context is exactly `{"domain": "general"}`. -/
theorem parse_empty_input :
    parse [] =
      { original_text := []
        normalized_description := []
        technical_system := none
        desired_improvement := none
        undesired_consequence := none
        constraints := []
        context := [("domain", "general")] } := by
  simp [parse, normalize_text, stripWs, collapseWsGo, listToLower,
    extract_technical_system, searchAlternation, extract_desired_improvement,
    extract_undesired_consequence, extract_constraints, findCaptures,
    extract_context, containsSeq, beginsWith]
  decide

/-- C4: both contradiction-matrix loaders produce a symmetric table — for
every key pair `(a, b)`, looking up `(b, a)` gives the same principle
list.  The first conjunct covers `KnowledgeLoader.load_contradiction_matrix`
over arbitrary parsed CSV rows; the second covers the hard-coded matrix
built by `PrincipleSelector._load_contradiction_matrix`. -/
theorem contradiction_matrix_symmetric :
    (∀ rows : List ((ℕ × ℕ) × List ℕ), ∀ a b : ℕ,
      dictLookup (load_contradiction_matrix rows) (a, b) =
        dictLookup (load_contradiction_matrix rows) (b, a)) ∧
    (∀ a b : ℕ,
      dictLookup selectorMatrix (a, b) = dictLookup selectorMatrix (b, a)) := by
  constructor
  · exact fun rows a b => load_matrix_symmetric rows a b
  · exact fun a b =>
      load_matrix_symmetric_aux known_relationships [] (fun _ _ => rfl) a b

/-- C1: `select_principles(9, 19)` does hit the contradiction matrix at
`[15, 2, 35, 18]`, but the call raises `AttributeError` instead of
returning: `_generate_reasoning` reads `self.parameters_data`, which
`__init__` never assigns.  With the reasoning generator stubbed out, the
rest of the function would return the matrix-sourced result the spec
describes. -/
theorem select_principles_speed_energy_raises :
    select_principles principlesTable 9 19 =
      Except.error (PyError.attributeError "parameters_data") ∧
    dictLookup selectorMatrix (9, 19) = some [15, 2, 35, 18] ∧
    ∃ r, select_principles_core (fun _ _ _ => Except.ok "") principlesTable
        9 19 = Except.ok r ∧
      r.recommendations.map (fun x => x.principle_id) = [15, 18, 35, 2] ∧
      r.matrix_source = "contradiction_matrix" := by
  refine ⟨by rfl, by rfl, ?_⟩
  have hlook : dictLookup selectorMatrix (9, 19) = some [15, 2, 35, 18] := rfl
  have s15 : calculate_relevance_score 15 9 19 = 1 := by
    unfold calculate_relevance_score
    rw [hlook]
    norm_num
  have s2 : calculate_relevance_score 2 9 19 = 4/5 := by
    unfold calculate_relevance_score
    rw [hlook]
    norm_num
  have s35 : calculate_relevance_score 35 9 19 = 9/10 := by
    unfold calculate_relevance_score
    rw [hlook]
    norm_num
  have s18 : calculate_relevance_score 18 9 19 = 19/20 := by
    unfold calculate_relevance_score
    rw [hlook]
    norm_num
  have hf : ∀ pid : ℕ, pid ∈ [2, 15, 18, 35] →
      principlesTable.find? (fun p => p.id = pid) = some ⟨pid, "", "", []⟩ := by
    decide
  refine ⟨⟨[⟨15, "", "", 1, "", []⟩, ⟨18, "", "", 19/20, "", []⟩,
      ⟨35, "", "", 9/10, "", []⟩, ⟨2, "", "", 4/5, "", []⟩],
    [⟨15, "", "", 1, "", []⟩, ⟨18, "", "", 19/20, "", []⟩,
      ⟨35, "", "", 9/10, "", []⟩, ⟨2, "", "", 4/5, "", []⟩],
    [], "contradiction_matrix"⟩, ?_, by norm_num, rfl⟩
  simp only [select_principles_core, hlook]
  simp only [buildRecommendations, hf 2 (by norm_num), hf 15 (by norm_num),
    hf 18 (by norm_num), hf 35 (by norm_num), s15, s2, s35, s18]
  show Except.ok _ = _
  simp only [Except.ok.injEq]
  norm_num [sortDesc, insertDesc]

/-- Contradiction relevance of each candidate effect at the (9, 19)
contradiction, evaluated. -/
theorem relevance_thermal_9_19 :
    calculate_contradiction_relevance thermalExpansionEffect 9 19 = 1/2 := by
  unfold calculate_contradiction_relevance thermalExpansionEffect
  split_ifs <;> simp_all <;> try norm_num

theorem relevance_shape_9_19 :
    calculate_contradiction_relevance shapeMemoryEffect 9 19 = 1/2 := by
  unfold calculate_contradiction_relevance shapeMemoryEffect
  split_ifs <;> simp_all <;> try norm_num

theorem relevance_piezo_9_19 :
    calculate_contradiction_relevance piezoelectricEffect 9 19 = 11/20 := by
  unfold calculate_contradiction_relevance piezoelectricEffect
  split_ifs <;> simp_all <;> try norm_num

theorem relevance_thermoelectric_9_19 :
    calculate_contradiction_relevance thermoelectricEffect 9 19 = 11/20 := by
  unfold calculate_contradiction_relevance thermoelectricEffect
  split_ifs <;> simp_all <;> try norm_num

theorem relevance_capillary_9_19 :
    calculate_contradiction_relevance capillaryActionEffect 9 19 = 0 := by
  unfold calculate_contradiction_relevance capillaryActionEffect
  split_ifs <;> simp_all <;> try norm_num

theorem relevance_aerogel_9_19 :
    calculate_contradiction_relevance aerogelEffect 9 19 = 3/10 := by
  unfold calculate_contradiction_relevance aerogelEffect
  split_ifs <;> simp_all <;> try norm_num

/-- Evaluation of `find_effects_for_contradiction(9, 19, [])` up to the
final sort: of the six candidate ids for parameters 9 and 19, five pass the
relevance threshold; `capillary_action` (relevance 0) does not. -/
theorem effects_9_19_unsorted :
    find_effects_for_contradiction 9 19 [] =
      sortDesc (fun r => r.relevance_score)
        [⟨thermalExpansionEffect,
            calculate_contradiction_relevance thermalExpansionEffect 9 19,
            generate_contradiction_reasoning thermalExpansionEffect 9 19,
            thermalExpansionEffect.related_principles⟩,
          ⟨shapeMemoryEffect,
            calculate_contradiction_relevance shapeMemoryEffect 9 19,
            generate_contradiction_reasoning shapeMemoryEffect 9 19,
            shapeMemoryEffect.related_principles⟩,
          ⟨piezoelectricEffect,
            calculate_contradiction_relevance piezoelectricEffect 9 19,
            generate_contradiction_reasoning piezoelectricEffect 9 19,
            piezoelectricEffect.related_principles⟩,
          ⟨thermoelectricEffect,
            calculate_contradiction_relevance thermoelectricEffect 9 19,
            generate_contradiction_reasoning thermoelectricEffect 9 19,
            thermoelectricEffect.related_principles⟩,
          ⟨aerogelEffect,
            calculate_contradiction_relevance aerogelEffect 9 19,
            generate_contradiction_reasoning aerogelEffect 9 19,
            aerogelEffect.related_principles⟩] := by
  have hids : relevant_effect_ids 9 19 [] =
      ["thermal_expansion", "shape_memory", "piezoelectric", "thermoelectric",
        "capillary_action", "aerogel"] := rfl
  have f1 : effectsDatabase.find? (fun e => e.1 = "thermal_expansion") =
      some ("thermal_expansion", thermalExpansionEffect) := rfl
  have f2 : effectsDatabase.find? (fun e => e.1 = "shape_memory") =
      some ("shape_memory", shapeMemoryEffect) := rfl
  have f3 : effectsDatabase.find? (fun e => e.1 = "piezoelectric") =
      some ("piezoelectric", piezoelectricEffect) := rfl
  have f4 : effectsDatabase.find? (fun e => e.1 = "thermoelectric") =
      some ("thermoelectric", thermoelectricEffect) := rfl
  have f5 : effectsDatabase.find? (fun e => e.1 = "capillary_action") =
      some ("capillary_action", capillaryActionEffect) := rfl
  have f6 : effectsDatabase.find? (fun e => e.1 = "aerogel") =
      some ("aerogel", aerogelEffect) := rfl
  simp only [find_effects_for_contradiction, contradiction_effect_step, hids,
    List.foldr_cons,
    List.foldr_nil, f1, f2, f3, f4, f5, f6, relevance_thermal_9_19,
    relevance_shape_9_19, relevance_piezo_9_19, relevance_thermoelectric_9_19,
    relevance_capillary_9_19, relevance_aerogel_9_19]
  norm_num

/-- C3 counterexample: `find_effects_for_contradiction(9, 19, [])` does
not recommend all three of `thermoelectric`, `capillary_action` and
`aerogel` — `capillary_action` is missing. -/
theorem effects_for_speed_energy_claim_false :
    ¬ ("thermoelectric" ∈ (find_effects_for_contradiction 9 19 []).map
        (fun r => r.effect.id) ∧
      "capillary_action" ∈ (find_effects_for_contradiction 9 19 []).map
        (fun r => r.effect.id) ∧
      "aerogel" ∈ (find_effects_for_contradiction 9 19 []).map
        (fun r => r.effect.id)) := by
  rintro ⟨-, hcap, -⟩
  rw [effects_9_19_unsorted] at hcap
  simp only [List.mem_map, mem_sortDesc] at hcap
  obtain ⟨a, ha, hid⟩ := hcap
  simp only [List.mem_cons, List.not_mem_nil, or_false] at ha
  rcases ha with h | h | h | h | h <;>
    (subst h; simp [thermalExpansionEffect, shapeMemoryEffect,
      piezoelectricEffect, thermoelectricEffect, aerogelEffect] at hid)

/-- C3 amended: `find_effects_for_contradiction(9, 19, [])` recommends at
least `thermoelectric` and `aerogel`; `capillary_action`, though listed in
the fixed param→effect table for parameter 19, is dropped by the relevance
threshold (its contradiction relevance is 0, not exceeding 0.1). -/
theorem effects_for_speed_energy_contents :
    "thermoelectric" ∈ (find_effects_for_contradiction 9 19 []).map
      (fun r => r.effect.id) ∧
    "aerogel" ∈ (find_effects_for_contradiction 9 19 []).map
      (fun r => r.effect.id) ∧
    ¬ "capillary_action" ∈ (find_effects_for_contradiction 9 19 []).map
      (fun r => r.effect.id) ∧
    calculate_contradiction_relevance capillaryActionEffect 9 19 = 0 := by
  rw [effects_9_19_unsorted]
  simp only [List.mem_map, mem_sortDesc]
  refine ⟨⟨⟨thermoelectricEffect,
      calculate_contradiction_relevance thermoelectricEffect 9 19,
      generate_contradiction_reasoning thermoelectricEffect 9 19,
      thermoelectricEffect.related_principles⟩, by simp, rfl⟩,
    ⟨⟨aerogelEffect,
      calculate_contradiction_relevance aerogelEffect 9 19,
      generate_contradiction_reasoning aerogelEffect 9 19,
      aerogelEffect.related_principles⟩, by simp, rfl⟩, ?_,
    relevance_capillary_9_19⟩
  rintro ⟨a, ha, hid⟩
  simp only [List.mem_cons, List.not_mem_nil, or_false] at ha
  rcases ha with h | h | h | h | h <;>
    (subst h; simp [thermalExpansionEffect, shapeMemoryEffect,
      piezoelectricEffect, thermoelectricEffect, aerogelEffect] at hid)

/-- C10: `find_effects_for_principles` with an empty principle-id list
returns the empty recommendation list (every effect has an empty
principle-overlap and is skipped before the division by
`len(principle_ids)`), for any domain keywords. -/
theorem effects_for_empty_principles (domain_keywords : List String) :
    find_effects_for_principles [] domain_keywords = [] := by
  rfl

/-- C9: for a context whose budget level, timeline and technical expertise
are all "medium", the adaptation confidence of any concept is exactly 1.0
(the additive total 1.1 clamped to the upper bound; no penalty condition
can apply because they require budget "low" or timeline "short"). -/
theorem medium_context_confidence_one (concept : ConceptFields)
    (context : AdaptationContext)
    (hb : context.budget_level = "medium")
    (ht : context.timeline = "medium")
    (he : context.technical_expertise = "medium") :
    calculate_adaptation_confidence concept context = 1 := by
  unfold calculate_adaptation_confidence
  rw [hb, ht, he]
  norm_num
  split_ifs <;> simp_all
  norm_num [min_def, max_def]

/-- C9 witness: a concrete all-"medium" context and a penalty-free concept
reach confidence exactly 1. -/
theorem medium_context_confidence_one_witness :
    calculate_adaptation_confidence ⟨some "Low", some "Incremental"⟩
      ⟨"automotive", "startup", "medium", "medium", "medium", "moderate",
        [], [], []⟩ = 1 :=
  medium_context_confidence_one _ _ rfl rfl rfl

/-- C2: `validate_contradiction_matrix` returns true exactly when every
parameter id in a matrix key is in the 39-parameter table and every
principle id in a matrix entry is in the 40-principle table; the condition
on the effects catalog's related-principle lists holds unconditionally (all
hard-coded ids lie in 1-40), so the biconditional of the claim holds for
every loaded matrix. -/
theorem validate_matrix_iff_ids_valid (rows : List ((ℕ × ℕ) × List ℕ)) :
    validate_contradiction_matrix rows = true ↔
      ((∀ e ∈ load_contradiction_matrix rows,
          (∃ p ∈ parametersTable, p.id = e.1.1) ∧
          (∃ p ∈ parametersTable, p.id = e.1.2) ∧
          ∀ pid ∈ e.2, ∃ q ∈ principlesTable, q.id = pid) ∧
        ∀ ef ∈ effectsDatabase, ∀ pid ∈ ef.2.related_principles,
          ∃ q ∈ principlesTable, q.id = pid) := by
  have heff : ∀ ef ∈ effectsDatabase, ∀ pid ∈ ef.2.related_principles,
      ∃ q ∈ principlesTable, q.id = pid := by decide
  simp only [validate_contradiction_matrix, List.all_eq_true,
    Bool.and_eq_true, List.any_eq_true, decide_eq_true_eq]
  constructor
  · intro h
    refine ⟨fun e he => ?_, heff⟩
    obtain ⟨⟨h1, h2⟩, h3⟩ := h e he
    exact ⟨h1, h2, h3⟩
  · rintro ⟨h, -⟩
    intro e he
    obtain ⟨h1, h2, h3⟩ := h e he
    exact ⟨⟨h1, h2⟩, h3⟩

/-- Every successful run of `select_principles` produces its three lists as
the sorted recommendations and its two threshold filters. -/
theorem select_core_ok_shape
    (reason : ℕ → ℕ → ℕ → Except PyError String) (principles : List Principle)
    (improving_param worsening_param : ℕ) (r : PrincipleSelectionResult)
    (h : select_principles_core reason principles improving_param
        worsening_param = Except.ok r) :
    ∃ recs, r.recommendations = sortDesc (fun x => x.relevance_score) recs ∧
      r.primary_principles = (sortDesc (fun x => x.relevance_score) recs).filter
        (fun x => x.relevance_score ≥ 0.7) ∧
      r.supporting_principles =
        (sortDesc (fun x => x.relevance_score) recs).filter
          (fun x => x.relevance_score < 0.7) := by
  simp only [select_principles_core] at h
  cases hbr : buildRecommendations reason principles improving_param
      worsening_param
      (match dictLookup selectorMatrix (improving_param, worsening_param) with
       | some ids => ids
       | none =>
           heuristic_principle_selection improving_param worsening_param) with
  | error e =>
      rw [hbr] at h
      simp only [Bind.bind, Except.bind] at h
      exact Except.noConfusion h
  | ok recs =>
      rw [hbr] at h
      simp only [Bind.bind, Except.bind, Except.ok.injEq] at h
      subst h
      exact ⟨recs, rfl, rfl, rfl⟩

/-- C6: in every `PrincipleSelectionResult` that `select_principles`
returns, a recommendation is in `primary_principles` iff its relevance
score is at least 0.7 and in `supporting_principles` iff its score is below
0.7, and every recommendation lies in exactly one of the two lists.  The
reasoning generator is a parameter because the stock
`_generate_reasoning` raises (see the C1 theorem); the partition holds for
any run that returns. -/
theorem primary_supporting_partition
    (reason : ℕ → ℕ → ℕ → Except PyError String) (principles : List Principle)
    (improving_param worsening_param : ℕ) (r : PrincipleSelectionResult)
    (h : select_principles_core reason principles improving_param
        worsening_param = Except.ok r) :
    (∀ x, x ∈ r.primary_principles ↔
      x ∈ r.recommendations ∧ x.relevance_score ≥ 0.7) ∧
    (∀ x, x ∈ r.supporting_principles ↔
      x ∈ r.recommendations ∧ x.relevance_score < 0.7) ∧
    ∀ x ∈ r.recommendations,
      (x ∈ r.primary_principles ∧ x ∉ r.supporting_principles) ∨
      (x ∈ r.supporting_principles ∧ x ∉ r.primary_principles) := by
  obtain ⟨recs, hrec, hprim, hsup⟩ := select_core_ok_shape reason principles
    improving_param worsening_param r h
  refine ⟨?_, ?_, ?_⟩
  · intro x
    rw [hrec, hprim]
    simp only [List.mem_filter, decide_eq_true_eq]
  · intro x
    rw [hrec, hsup]
    simp only [List.mem_filter, decide_eq_true_eq]
  · intro x hx
    rw [hrec] at hx
    rcases le_or_lt 0.7 x.relevance_score with hge | hlt
    · left
      constructor
      · rw [hprim]
        simp only [List.mem_filter, decide_eq_true_eq]
        exact ⟨hx, hge⟩
      · rw [hsup]
        simp only [List.mem_filter, decide_eq_true_eq]
        rintro ⟨-, hc⟩
        exact absurd hge (not_le.mpr hc)
    · right
      constructor
      · rw [hsup]
        simp only [List.mem_filter, decide_eq_true_eq]
        exact ⟨hx, hlt⟩
      · rw [hprim]
        simp only [List.mem_filter, decide_eq_true_eq]
        rintro ⟨-, hc⟩
        exact absurd hc (not_le.mpr hlt)

/-- Relevance of principle 15 for the (9, 19) contradiction, evaluated. -/
theorem relevance_15_9_19 : calculate_relevance_score 15 9 19 = 1 := by
  unfold calculate_relevance_score
  rw [show dictLookup selectorMatrix (9, 19) = some [15, 2, 35, 18] from rfl]
  norm_num

/-- C6 witness: a concrete successful run (reasoning stubbed, a
one-principle table) whose result satisfies the partition properties. -/
theorem primary_supporting_partition_witness :
    (∀ x, x ∈ (⟨[⟨15, "", "", 1, "", []⟩], [⟨15, "", "", 1, "", []⟩], [],
        "contradiction_matrix"⟩ : PrincipleSelectionResult).primary_principles ↔
      x ∈ (⟨[⟨15, "", "", 1, "", []⟩], [⟨15, "", "", 1, "", []⟩], [],
        "contradiction_matrix"⟩ : PrincipleSelectionResult).recommendations ∧
      x.relevance_score ≥ 0.7) ∧
    (∀ x, x ∈ (⟨[⟨15, "", "", 1, "", []⟩], [⟨15, "", "", 1, "", []⟩], [],
        "contradiction_matrix"⟩ : PrincipleSelectionResult).supporting_principles ↔
      x ∈ (⟨[⟨15, "", "", 1, "", []⟩], [⟨15, "", "", 1, "", []⟩], [],
        "contradiction_matrix"⟩ : PrincipleSelectionResult).recommendations ∧
      x.relevance_score < 0.7) ∧
    ∀ x ∈ (⟨[⟨15, "", "", 1, "", []⟩], [⟨15, "", "", 1, "", []⟩], [],
        "contradiction_matrix"⟩ : PrincipleSelectionResult).recommendations,
      (x ∈ (⟨[⟨15, "", "", 1, "", []⟩], [⟨15, "", "", 1, "", []⟩], [],
          "contradiction_matrix"⟩ : PrincipleSelectionResult).primary_principles ∧
        x ∉ (⟨[⟨15, "", "", 1, "", []⟩], [⟨15, "", "", 1, "", []⟩], [],
          "contradiction_matrix"⟩ : PrincipleSelectionResult).supporting_principles) ∨
      (x ∈ (⟨[⟨15, "", "", 1, "", []⟩], [⟨15, "", "", 1, "", []⟩], [],
          "contradiction_matrix"⟩ : PrincipleSelectionResult).supporting_principles ∧
        x ∉ (⟨[⟨15, "", "", 1, "", []⟩], [⟨15, "", "", 1, "", []⟩], [],
          "contradiction_matrix"⟩ : PrincipleSelectionResult).primary_principles) := by
  refine primary_supporting_partition (fun _ _ _ => Except.ok "")
    [⟨15, "", "", []⟩] 9 19 _ ?_
  have hbuild : buildRecommendations (fun _ _ _ => Except.ok "")
      [⟨15, "", "", []⟩] 9 19 [15, 2, 35, 18] =
      Except.ok [⟨15, "", "", calculate_relevance_score 15 9 19, "", []⟩] := rfl
  simp only [select_principles_core,
    show dictLookup selectorMatrix (9, 19) = some [15, 2, 35, 18] from rfl]
  rw [hbuild]
  simp only [Bind.bind, Except.bind, Except.ok.injEq, sortDesc, insertDesc,
    List.foldl, relevance_15_9_19]
  norm_num

/-- The fold of `keywordScore` never decreases its accumulator. -/
theorem keywordScore_foldl_ge_init (kw : List Char) (l : List (List Char))
    (a : ℚ) :
    a ≤ l.foldl (fun score pk =>
      if containsSeq pk kw || containsSeq kw pk then max score 0.7
      else if levenshtein kw pk ≤ 2 then max score 0.5
      else score) a := by
  induction l generalizing a with
  | nil => exact le_refl a
  | cons p ps ih =>
      refine le_trans ?_ (ih _)
      dsimp only
      split_ifs <;> simp [le_max_left]

/-- A substring match somewhere in the keyword set pushes the fold of
`keywordScore` to at least 0.7. -/
theorem keywordScore_foldl_substr (kw pk : List Char)
    (l : List (List Char)) (a : ℚ) (hmem : pk ∈ l)
    (hor : containsSeq pk kw = true ∨ containsSeq kw pk = true) :
    0.7 ≤ l.foldl (fun score pk =>
      if containsSeq pk kw || containsSeq kw pk then max score 0.7
      else if levenshtein kw pk ≤ 2 then max score 0.5
      else score) a := by
  induction l generalizing a with
  | nil => exact absurd hmem (List.not_mem_nil pk)
  | cons p ps ih =>
      rw [List.foldl_cons]
      rcases List.mem_cons.mp hmem with heq | hmem'
      · subst heq
        refine le_trans ?_ (keywordScore_foldl_ge_init kw ps _)
        have hcond : (containsSeq pk kw || containsSeq kw pk) = true := by
          rcases hor with h | h <;> simp [h]
        rw [if_pos hcond]
        exact le_max_right _ _
      · exact ih _ hmem'

/-- A Levenshtein-distance-at-most-2 match somewhere in the keyword set
pushes the fold of `keywordScore` to at least 0.5 (even when the matching
keyword is consumed by the substring branch, which awards 0.7). -/
theorem keywordScore_foldl_lev (kw pk : List Char)
    (l : List (List Char)) (a : ℚ) (hmem : pk ∈ l)
    (hlev : levenshtein kw pk ≤ 2) :
    0.5 ≤ l.foldl (fun score pk =>
      if containsSeq pk kw || containsSeq kw pk then max score 0.7
      else if levenshtein kw pk ≤ 2 then max score 0.5
      else score) a := by
  induction l generalizing a with
  | nil => exact absurd hmem (List.not_mem_nil pk)
  | cons p ps ih =>
      rw [List.foldl_cons]
      rcases List.mem_cons.mp hmem with heq | hmem'
      · subst heq
        refine le_trans ?_ (keywordScore_foldl_ge_init kw ps _)
        split_ifs with h1
        · exact le_trans (by norm_num) (le_max_right a 0.7)
        · exact le_max_right _ _
      · exact ih _ hmem'

/-- C7: the fuzzy keyword-to-parameter score is monotone in match
strength: an exact case-insensitive membership match scores exactly 1.0
(and always takes precedence), a substring match in either direction
guarantees a score of at least 0.7, and a Levenshtein-distance-at-most-2
match guarantees at least 0.5 — so the tiers 1.0 ≥ 0.7 ≥ 0.5 order the
score whenever the stronger match applies. -/
theorem fuzzy_match_tier_scores (keywordLower : List Char)
    (keywords : List (List Char)) :
    ((keywords.map listToLower).contains keywordLower = true →
      keywordScore keywordLower keywords = 1) ∧
    ((∃ pk ∈ keywords, containsSeq pk keywordLower = true ∨
        containsSeq keywordLower pk = true) →
      0.7 ≤ keywordScore keywordLower keywords) ∧
    ((∃ pk ∈ keywords, levenshtein keywordLower pk ≤ 2) →
      0.5 ≤ keywordScore keywordLower keywords) := by
  unfold keywordScore
  by_cases hex : (keywords.map listToLower).contains keywordLower = true
  · rw [if_pos hex]
    exact ⟨fun _ => rfl, fun _ => by norm_num, fun _ => by norm_num⟩
  · rw [if_neg hex]
    refine ⟨fun hc => absurd hc hex, fun hsub => ?_, fun hlev => ?_⟩
    · obtain ⟨pk, hmem, hor⟩ := hsub
      exact keywordScore_foldl_substr keywordLower pk keywords 0 hmem hor
    · obtain ⟨pk, hmem, h⟩ := hlev
      exact keywordScore_foldl_lev keywordLower pk keywords 0 hmem h

/-- C7 witness: against the keyword set `["speed", "speedy", "sped"]`, the
keyword `"speed"` has an exact match (score 1), a substring match
(`"speed"` inside `"speedy"`, guaranteeing at least 0.7) and an
edit-distance-1 match (`"sped"`, guaranteeing at least 0.5). -/
theorem fuzzy_match_tier_scores_witness :
    keywordScore ("speed".data) ["speed".data, "speedy".data, "sped".data] = 1 ∧
    (0.7 : ℚ) ≤ keywordScore ("speed".data)
      ["speed".data, "speedy".data, "sped".data] ∧
    (0.5 : ℚ) ≤ keywordScore ("speed".data)
      ["speed".data, "speedy".data, "sped".data] :=
  ⟨(fuzzy_match_tier_scores ("speed".data)
      ["speed".data, "speedy".data, "sped".data]).1 (by decide),
   (fuzzy_match_tier_scores ("speed".data)
      ["speed".data, "speedy".data, "sped".data]).2.1
     ⟨"speedy".data, by decide, Or.inl (by decide)⟩,
   (fuzzy_match_tier_scores ("speed".data)
      ["speed".data, "speedy".data, "sped".data]).2.2
     ⟨"sped".data, by decide, by decide⟩⟩

/-- A fold whose step never decreases the accumulator stays at or above
its starting value. -/
theorem le_foldl_of_le_step {α : Type} (f : ℚ → α → ℚ)
    (hf : ∀ s x, s ≤ f s x) : ∀ (l : List α) (a : ℚ), a ≤ l.foldl f a := by
  intro l
  induction l with
  | nil => intro a; exact le_refl a
  | cons x xs ih => intro a; exact le_trans (hf a x) (ih (f a x))

/-- `_calculate_relevance_score` stays in [0, 1] for every input. -/
theorem relevance_score_bounds (principle_id improving_param
    worsening_param : ℕ) :
    0 ≤ calculate_relevance_score principle_id improving_param
      worsening_param ∧
    calculate_relevance_score principle_id improving_param
      worsening_param ≤ 1 := by
  unfold calculate_relevance_score
  constructor
  · refine le_min ?_ (by norm_num)
    split_ifs <;> norm_num
  · exact min_le_right _ _

/-- `_calculate_adaptation_confidence` stays in [0.1, 1] for every
input. -/
theorem adaptation_confidence_bounds (concept : ConceptFields)
    (context : AdaptationContext) :
    0.1 ≤ calculate_adaptation_confidence concept context ∧
    calculate_adaptation_confidence concept context ≤ 1 := by
  unfold calculate_adaptation_confidence
  constructor
  · exact le_max_left _ _
  · exact max_le (by norm_num) (min_le_left _ _)

/-- `_calculate_domain_match` stays in [0, 1]. -/
theorem domain_match_bounds (effect : ScientificEffect)
    (domain_keywords : List String) :
    0 ≤ calculate_domain_match effect domain_keywords ∧
    calculate_domain_match effect domain_keywords ≤ 1 := by
  unfold calculate_domain_match
  constructor
  · refine le_min ?_ (by norm_num)
    refine le_trans ?_ (le_foldl_of_le_step _ ?_ _ _)
    · refine le_trans (le_refl 0) (le_foldl_of_le_step _ ?_ _ _)
      intro s x
      refine le_foldl_of_le_step _ ?_ _ _
      intro s kw
      split_ifs <;> norm_num
    · intro s x
      refine le_foldl_of_le_step _ ?_ _ _
      intro s kw
      split_ifs <;> norm_num
  · exact min_le_right _ _

/-- `_calculate_contradiction_relevance` stays in [0, 1]. -/
theorem contradiction_relevance_bounds (effect : ScientificEffect)
    (improving_param worsening_param : ℕ) :
    0 ≤ calculate_contradiction_relevance effect improving_param
      worsening_param ∧
    calculate_contradiction_relevance effect improving_param
      worsening_param ≤ 1 := by
  unfold calculate_contradiction_relevance
  constructor
  · refine le_min ?_ (by norm_num)
    have h1 : (0:ℚ) ≤ ((effect.related_principles.dedup.filter
        (fun p => p ∈ [15, 35, 2, 1])).length : ℚ) / 4 := by positivity
    refine add_nonneg h1 ?_
    split_ifs <;> norm_num
  · exact min_le_right _ _

/-- The per-parameter fuzzy score stays in [0, 1]. -/
theorem keywordScore_bounds (kw : List Char) (l : List (List Char)) :
    0 ≤ keywordScore kw l ∧ keywordScore kw l ≤ 1 := by
  unfold keywordScore
  split_ifs with hex
  · norm_num
  · constructor
    · exact keywordScore_foldl_ge_init kw l 0
    · have hone : ∀ (m : List (List Char)) (a : ℚ), a ≤ 1 →
          m.foldl (fun score pk =>
            if containsSeq pk kw || containsSeq kw pk then max score 0.7
            else if levenshtein kw pk ≤ 2 then max score 0.5
            else score) a ≤ 1 := by
        intro m
        induction m with
        | nil => intro a ha; exact ha
        | cons p ps ih =>
            intro a ha
            rw [List.foldl_cons]
            refine ih _ ?_
            split_ifs <;> first
              | exact max_le ha (by norm_num)
              | exact ha
      exact hone l 0 (by norm_num)

/-- Every score kept by `_match_keyword_to_parameters` is in [0, 1]. -/
theorem match_keyword_entry_bounds (kw : List Char)
    (tbl : List (ℕ × List (List Char))) :
    ∀ e ∈ match_keyword_to_parameters kw tbl, 0 ≤ e.2 ∧ e.2 ≤ 1 := by
  unfold match_keyword_to_parameters
  induction tbl with
  | nil => intro e he; exact absurd he (List.not_mem_nil e)
  | cons p ps ih =>
      intro e he
      rw [List.foldr_cons] at he
      by_cases hs : keywordScore (listToLower kw) p.2 > 0.3
      · rw [if_pos hs] at he
        rcases List.mem_cons.mp he with heq | he'
        · subst heq
          exact keywordScore_bounds (listToLower kw) p.2
        · exact ih e he'
      · rw [if_neg hs] at he
        exact ih e he

/-- The max-merge dict update keeps every stored score in [0, 1]. -/
theorem maxUpdate_entry_bounds (acc : List (ℕ × ℚ)) (pid : ℕ) (s : ℚ)
    (hacc : ∀ e ∈ acc, 0 ≤ e.2 ∧ e.2 ≤ 1) (hs : 0 ≤ s ∧ s ≤ 1) :
    ∀ e ∈ maxUpdate acc pid s, 0 ≤ e.2 ∧ e.2 ≤ 1 := by
  unfold maxUpdate
  split_ifs with hany
  · intro e he
    rcases List.mem_map.mp he with ⟨e', he', heq⟩
    by_cases hp : e'.1 = pid
    · rw [if_pos hp] at heq
      subst heq
      exact ⟨le_max_of_le_left (hacc e' he').1,
        max_le (hacc e' he').2 hs.2⟩
    · rw [if_neg hp] at heq
      subst heq
      exact hacc e' he'
  · intro e he
    rcases List.mem_append.mp he with he' | he'
    · exact hacc e he'
    · rcases List.mem_cons.mp he' with heq | hc
      · subst heq
        exact ⟨le_max_left 0 s, max_le (by norm_num) hs.2⟩
      · exact absurd hc (List.not_mem_nil e)

/-- Folding max-merge updates over bounded candidates keeps all entries in
[0, 1]. -/
theorem foldl_maxUpdate_bounds (cands : List (ℕ × ℚ)) (acc : List (ℕ × ℚ))
    (hc : ∀ c ∈ cands, 0 ≤ c.2 ∧ c.2 ≤ 1)
    (hacc : ∀ e ∈ acc, 0 ≤ e.2 ∧ e.2 ≤ 1) :
    ∀ e ∈ cands.foldl (fun acc c => maxUpdate acc c.1 c.2) acc,
      0 ≤ e.2 ∧ e.2 ≤ 1 := by
  induction cands generalizing acc with
  | nil => exact hacc
  | cons c cs ih =>
      rw [List.foldl_cons]
      exact ih _ (fun x hx => hc x (List.mem_cons_of_mem c hx))
        (maxUpdate_entry_bounds acc c.1 c.2 hacc
          (hc c (List.mem_cons_self c cs)))

/-- Every improvement-candidate score is in [0, 1]. -/
theorem find_improvement_parameters_bounds
    (tbl : List (ℕ × List (List Char))) (kws : List (List Char)) :
    ∀ e ∈ find_improvement_parameters tbl kws, 0 ≤ e.2 ∧ e.2 ≤ 1 := by
  unfold find_improvement_parameters
  refine foldl_maxUpdate_bounds _ [] ?_ ?_
  · intro c hc
    rcases List.mem_flatMap.mp hc with ⟨kw, hkw, hmem⟩
    exact match_keyword_entry_bounds kw tbl c hmem
  · intro e he
    exact absurd he (List.not_mem_nil e)

/-- Every worsening-candidate score is in [0, 1]. -/
theorem find_worsening_parameters_bounds
    (tbl : List (ℕ × List (List Char))) (kws : List (List Char)) :
    ∀ e ∈ find_worsening_parameters tbl kws, 0 ≤ e.2 ∧ e.2 ≤ 1 := by
  unfold find_worsening_parameters
  refine foldl_maxUpdate_bounds _ [] ?_ ?_
  · intro c hc
    rcases List.mem_flatMap.mp hc with ⟨kw, hkw, hmem⟩
    exact match_keyword_entry_bounds kw tbl c hmem
  · intro e he
    exact absurd he (List.not_mem_nil e)

/-- Every contradiction confidence produced by `identify_contradiction`
(the mean of two candidate scores) is in [0, 1]. -/
theorem identify_contradiction_confidence_bounds (params : List Parameter)
    (improvementKeywords worseningKeywords : List (List Char)) :
    (identify_contradiction params improvementKeywords
      worseningKeywords).contradictions.all
      (fun c => decide (0 ≤ c.confidence_score ∧ c.confidence_score ≤ 1)) =
      true := by
  rw [List.all_eq_true]
  intro c hc
  rw [decide_eq_true_eq]
  simp only [identify_contradiction] at hc
  rw [mem_sortDesc] at hc
  rcases List.mem_flatMap.mp hc with ⟨ic, hic, hwcmem⟩
  rcases List.mem_filterMap.mp hwcmem with ⟨wc, hwc, heq⟩
  by_cases hne : ic.1 ≠ wc.1
  · rw [if_pos hne] at heq
    have hi := find_improvement_parameters_bounds
      (build_parameter_keywords params) improvementKeywords ic hic
    have hw := find_worsening_parameters_bounds
      (build_parameter_keywords params) worseningKeywords wc hwc
    have hcs : c.confidence_score = (ic.2 + wc.2) / 2 := by
      cases heq
      rfl
    rw [hcs]
    constructor
    · have h1 := hi.1
      have h2 := hw.1
      linarith
    · have h1 := hi.2
      have h2 := hw.2
      linarith
  · rw [if_neg hne] at heq
    cases heq

/-- The principle-overlap ratio is in [0, 1] whenever the overlap is
nonempty. -/
theorem overlap_ratio_bounds (principle_ids : List ℕ)
    (related : List ℕ)
    (h1 : ¬ (principle_ids.dedup.filter
      (fun p => related.contains p)).isEmpty = true) :
    0 ≤ ((principle_ids.dedup.filter
        (fun p => related.contains p)).length : ℚ) /
        (principle_ids.length : ℚ) ∧
      ((principle_ids.dedup.filter
        (fun p => related.contains p)).length : ℚ) /
        (principle_ids.length : ℚ) ≤ 1 := by
  have hlen : (principle_ids.dedup.filter
      (fun p => related.contains p)).length ≤ principle_ids.length :=
    le_trans (List.Sublist.length_le (List.filter_sublist _))
      (List.Sublist.length_le (List.dedup_sublist _))
  have hpos : 0 < (principle_ids.dedup.filter
      (fun p => related.contains p)).length :=
    List.length_pos.mpr (fun he => h1 (by rw [he]; rfl))
  have hplen : 0 < principle_ids.length := lt_of_lt_of_le hpos hlen
  constructor
  · positivity
  · rw [div_le_one (by exact_mod_cast hplen)]
    exact_mod_cast hlen

/-- Each step of the `find_effects_for_principles` loop either passes a
recommendation through or adds one whose relevance is in [0, 1]. -/
theorem principles_effect_step_bounds (principle_ids : List ℕ)
    (domain_keywords : List String) (e : String × ScientificEffect)
    (acc : List EffectRecommendation) (r : EffectRecommendation)
    (hr : r ∈ principles_effect_step principle_ids domain_keywords e acc) :
    r ∈ acc ∨ (0 ≤ r.relevance_score ∧ r.relevance_score ≤ 1) := by
  unfold principles_effect_step at hr
  dsimp only at hr
  split_ifs at hr with h1 hd h3 h4 <;>
    [exact Or.inl hr; skip; exact Or.inl hr; skip; exact Or.inl hr] <;>
    (rcases List.mem_cons.mp hr with heq | hr'
     · subst heq
       right
       have hrel0 := overlap_ratio_bounds principle_ids
         e.2.related_principles h1
       have hdm := domain_match_bounds e.2 domain_keywords
       constructor <;> dsimp only <;>
         linarith [hrel0.1, hrel0.2, hdm.1, hdm.2]
     · exact Or.inl hr')

/-- Each step of the `find_effects_for_contradiction` loop either passes a
recommendation through or adds one whose relevance is in [0, 1]. -/
theorem contradiction_effect_step_bounds (improving_param
    worsening_param : ℕ) (eid : String)
    (acc : List EffectRecommendation) (r : EffectRecommendation)
    (hr : r ∈ contradiction_effect_step improving_param worsening_param
      eid acc) :
    r ∈ acc ∨ (0 ≤ r.relevance_score ∧ r.relevance_score ≤ 1) := by
  unfold contradiction_effect_step at hr
  rcases hfind : effectsDatabase.find? (fun e => e.1 = eid) with - | e
  · rw [hfind] at hr
    exact Or.inl hr
  · rw [hfind] at hr
    dsimp only at hr
    split_ifs at hr with h1
    · rcases List.mem_cons.mp hr with heq | hr'
      · subst heq
        exact Or.inr (contradiction_relevance_bounds e.2 improving_param
          worsening_param)
      · exact Or.inl hr'
    · exact Or.inl hr

/-- A fold of a step with the pass-through-or-bounded property over a
bounded accumulator yields only bounded recommendations. -/
theorem foldr_effect_bounds {β : Type}
    (step : β → List EffectRecommendation → List EffectRecommendation)
    (hstep : ∀ x acc r, r ∈ step x acc →
      r ∈ acc ∨ (0 ≤ r.relevance_score ∧ r.relevance_score ≤ 1))
    (l : List β) (acc : List EffectRecommendation)
    (hacc : ∀ r ∈ acc, 0 ≤ r.relevance_score ∧ r.relevance_score ≤ 1) :
    ∀ r ∈ l.foldr step acc,
      0 ≤ r.relevance_score ∧ r.relevance_score ≤ 1 := by
  induction l with
  | nil => exact hacc
  | cons x xs ih =>
      intro r hr
      rw [List.foldr_cons] at hr
      rcases hstep x _ r hr with hin | hb
      · exact ih r hin
      · exact hb

/-- Every relevance score returned by `find_effects_for_principles` is in
[0, 1]. -/
theorem find_effects_for_principles_bounds (principle_ids : List ℕ)
    (domain_keywords : List String) :
    (find_effects_for_principles principle_ids domain_keywords).all
      (fun r => decide (0 ≤ r.relevance_score ∧ r.relevance_score ≤ 1)) =
      true := by
  rw [List.all_eq_true]
  intro r hr
  rw [decide_eq_true_eq]
  have hmem : r ∈ effectsDatabase.foldr
      (principles_effect_step principle_ids domain_keywords) [] := by
    have hmem0 := hr
    simp only [find_effects_for_principles] at hmem0
    rwa [mem_sortDesc] at hmem0
  exact foldr_effect_bounds _
    (fun x acc r h =>
      principles_effect_step_bounds principle_ids domain_keywords x acc r h)
    effectsDatabase []
    (fun r h => absurd h (List.not_mem_nil r)) r hmem

/-- Every relevance score returned by `find_effects_for_contradiction` is
in [0, 1]. -/
theorem find_effects_for_contradiction_bounds
    (improving_param worsening_param : ℕ) (domain_keywords : List String) :
    (find_effects_for_contradiction improving_param worsening_param
      domain_keywords).all
      (fun r => decide (0 ≤ r.relevance_score ∧ r.relevance_score ≤ 1)) =
      true := by
  rw [List.all_eq_true]
  intro r hr
  rw [decide_eq_true_eq]
  have hmem : r ∈ (relevant_effect_ids improving_param worsening_param
      domain_keywords).foldr
      (contradiction_effect_step improving_param worsening_param) [] := by
    have hmem0 := hr
    simp only [find_effects_for_contradiction] at hmem0
    rwa [mem_sortDesc] at hmem0
  exact foldr_effect_bounds _
    (fun x acc r h =>
      contradiction_effect_step_bounds improving_param worsening_param
        x acc r h)
    _ [] (fun r h => absurd h (List.not_mem_nil r)) r hmem

/-- C5: at every site where the pipeline produces a score, the score lies
within its documented bounds — principle relevance scores in [0, 1],
adaptation confidence in [0.1, 1.0], every contradiction confidence in
[0, 1], and every effect relevance (both lookup entry points) in
[0, 1] — for all inputs. -/
theorem scores_within_documented_bounds :
    (∀ principle_id improving_param worsening_param : ℕ,
      0 ≤ calculate_relevance_score principle_id improving_param
        worsening_param ∧
      calculate_relevance_score principle_id improving_param
        worsening_param ≤ 1) ∧
    (∀ (concept : ConceptFields) (context : AdaptationContext),
      0.1 ≤ calculate_adaptation_confidence concept context ∧
      calculate_adaptation_confidence concept context ≤ 1) ∧
    (∀ (params : List Parameter)
      (improvementKeywords worseningKeywords : List (List Char)),
      (identify_contradiction params improvementKeywords
        worseningKeywords).contradictions.all
        (fun c => decide (0 ≤ c.confidence_score ∧
          c.confidence_score ≤ 1)) = true) ∧
    (∀ (principle_ids : List ℕ) (domain_keywords : List String),
      (find_effects_for_principles principle_ids domain_keywords).all
        (fun r => decide (0 ≤ r.relevance_score ∧
          r.relevance_score ≤ 1)) = true) ∧
    (∀ (improving_param worsening_param : ℕ)
      (domain_keywords : List String),
      (find_effects_for_contradiction improving_param worsening_param
        domain_keywords).all
        (fun r => decide (0 ≤ r.relevance_score ∧
          r.relevance_score ≤ 1)) = true) :=
  ⟨relevance_score_bounds, adaptation_confidence_bounds,
    identify_contradiction_confidence_bounds,
    find_effects_for_principles_bounds,
    find_effects_for_contradiction_bounds⟩

end Heinrich
